import Mathlib

/-!
# gPanel public web server: `pkg/public/public.go`

A shallow embedding of `New` and `Controller.ServeHTTP`.

* Go strings are byte sequences, so `string` is `List UInt8`; `s[1:]` drops one byte.
* The handler's collaborators outside the file (the operating system, the clock, the
  content-type resolver, `io.Copy`) are read from an `Env`; their effects are written to an
  explicit `World` (open file handles, the two log sinks, and a trace of the calls made).
* `http.ResponseWriter` is a `Response` value that follows the contract of `net/http`:
  the status line and the header map are committed by the first `WriteHeader` or `Write`.
* A Go panic is the result `none`.
-/

namespace GPanel.Public

/-! ## Go strings -/

/-- Go `string`: an immutable sequence of bytes. -/
abbrev GoString := List UInt8

/-- Bytes of a string literal of the source (its UTF-8 encoding). -/
def str (s : String) : GoString := s.toUTF8.data.toList

/-- ASCII digit for the decimal digit `d % 10`. -/
def digitByte (d : Nat) : UInt8 := UInt8.ofNat (48 + d % 10)

/-- Decimal digits of `n`, most significant first, pushed in front of `acc`. -/
def formatBits : Nat → Nat → GoString → GoString
  | 0, _, acc => acc
  | fuel + 1, n, acc =>
    let acc1 := digitByte (n % 10) :: acc
    if n / 10 = 0 then acc1 else formatBits fuel (n / 10) acc1

/-- Decimal text of a natural number, `strconv.FormatUint(n, 10)`. -/
def FormatUint (n : Nat) : GoString := formatBits (n + 1) n []

/-- Decimal text of an integer, `strconv.Itoa`. -/
def Itoa (i : Int) : GoString :=
  if i < 0 then 45 :: FormatUint i.natAbs else FormatUint i.natAbs

/-- A byte that is an ASCII decimal digit. -/
def isDigit (b : UInt8) : Prop := 48 ≤ b.toNat ∧ b.toNat ≤ 57

instance (b : UInt8) : Decidable (isDigit b) := by unfold isDigit; infer_instance

/-- Number denoted by a run of ASCII decimal digits. -/
def decimalValue (s : GoString) : Nat :=
  s.foldl (fun acc b => acc * 10 + (b.toNat - 48)) 0

/-! ## Constants of `net/http` and `time` used by the handler -/

def StatusOK : Nat := 200
def StatusNotFound : Nat := 404
def StatusUnsupportedMediaType : Nat := 415
def StatusInternalServerError : Nat := 500
def StatusServiceUnavailable : Nat := 503

/-- One second as a `time.Duration`, in nanoseconds. -/
def Second : Nat := 1000000000

/-! ## `http.ResponseWriter` -/

/-- Header map: the key/value lines in the order they were added. -/
abbrev Header := List (GoString × GoString)

/-- State of the response writer handed to the handler. `wrote` holds the status code and the
snapshot of the header map taken when the header was written; it is `none` until then. -/
structure Response where
  header : Header
  wrote : Option (Nat × Header)
  body : List UInt8
deriving DecidableEq

/-- Response writer the server passes to a handler: nothing set, nothing written. -/
def Response.fresh : Response := ⟨[], none, []⟩

/-- The call `res.Header().Add(k, v)`. -/
def Response.headerAdd (r : Response) (k v : GoString) : Response :=
  { r with header := r.header ++ [(k, v)] }

/-- The call `res.Header().Set(k, v)`. -/
def Response.headerSet (r : Response) (k v : GoString) : Response :=
  { r with header := r.header.filter (fun kv => kv.1 ≠ k) ++ [(k, v)] }

/-- The call `res.WriteHeader(code)`: only the first header write counts, a later one is
dropped by the server as superfluous. -/
def Response.WriteHeader (r : Response) (code : Nat) : Response :=
  match r.wrote with
  | some _ => r
  | none => { r with wrote := some (code, r.header) }

/-- The call `res.Write(p)`: writes the header with `200 OK` when none was written yet, then
appends to the body. -/
def Response.Write (r : Response) (p : List UInt8) : Response :=
  let r1 := r.WriteHeader StatusOK
  { r1 with body := r1.body ++ p }

/-- Status code the client gets: the one written, or `200 OK` when the handler returned
without writing a header. -/
def Response.sentStatus (r : Response) : Nat :=
  match r.wrote with
  | some (code, _) => code
  | none => StatusOK

/-- Header lines the client gets from the handler: the snapshot taken when the header was
written, or the header map at return when none was written. -/
def Response.sentHeader (r : Response) : Header :=
  match r.wrote with
  | some (_, h) => h
  | none => r.header

/-- The call `http.Error(w, msg, code)`: plain-text content type, the status code, and the
message followed by a newline. -/
def httpError (r : Response) (msg : GoString) (code : Nat) : Response :=
  let r1 := r.headerSet (str "Content-Type") (str "text/plain; charset=utf-8")
  let r2 := r1.headerSet (str "X-Content-Type-Options") (str "nosniff")
  (r2.WriteHeader code).Write (msg ++ str "\n")

/-! ## Collaborators and observable state -/

/-- Calls the handler makes on the outside world, in order. -/
inductive Event where
  | osOpen (path : GoString)
  | getContentType (path : GoString)
  | headerAdd (key value : GoString)
  | ioCopy (path : GoString)
  | publicLog (line : GoString)
  | loadLog (line : GoString)
  | httpError (msg : GoString) (code : Nat)
  | httpThrowStatus (code : Nat)
deriving DecidableEq

/-- Answers of the collaborators during one request.
* `osOpen path`: `os.Open`, the bytes a complete read of the file yields, or the error text;
* `getContentType path`: `routing.GetContentType`, the MIME string or the error text;
* `ioCopy path`: the return values of `io.Copy(res, f)`: `none` when it reaches the end of
  the file without error, `some (n, e)` when it stops with error text `e` after `n` bytes
  were copied;
* `statusBody code`: the bytes `routing.HttpThrowStatus` writes as the error body;
* `startTime`, `endTime`: monotonic clock readings, in nanoseconds, at `time.Now()` and at
  `time.Since(startTime)`. -/
structure Env where
  osOpen : GoString → Except GoString (List UInt8)
  getContentType : GoString → Except GoString GoString
  ioCopy : GoString → Option (Nat × GoString)
  statusBody : Nat → List UInt8
  startTime : Nat
  endTime : Nat

/-- State outside the response: the open file handles (each named by the path it was opened
on), the lines held by the error sink and by the load-time sink, and the trace of calls. -/
structure World where
  openFiles : List GoString
  errorSink : List GoString
  loadSink : List GoString
  trace : List Event
deriving DecidableEq

/-- Append one call to the trace. -/
def World.record (w : World) (e : Event) : World :=
  { w with trace := w.trace ++ [e] }

/-- Modelled from the spec: `(*file.Handler).Write` of `pkg/file` is not in the sources. The
sink "accepts a single string per call, appends it durably". This is `con.PublicLogger.Write`. -/
def PublicLogger.Write (w : World) (line : GoString) : World :=
  { w with errorSink := w.errorSink ++ [line], trace := w.trace ++ [Event.publicLog line] }

/-- Modelled from the spec: `(*file.Handler).Write` of `pkg/file` is not in the sources. The
sink "accepts a single string per call, appends it durably". This is
`con.LoadTimeLogger.Write`. -/
def LoadTimeLogger.Write (w : World) (line : GoString) : World :=
  { w with loadSink := w.loadSink ++ [line], trace := w.trace ++ [Event.loadLog line] }

/-- Modelled from the spec: `routing.HttpThrowStatus` of `pkg/routing` is not in the sources.
It "responds" with the given status and "a plain-text error body": the status goes through
`WriteHeader`, the body (left open by the spec, `body`) through `Write`. -/
def HttpThrowStatus (code : Nat) (body : List UInt8) (res : Response) : Response :=
  (res.WriteHeader code).Write body

/-! ## `time.Since`, `Duration.Seconds`, `strconv.FormatFloat` -/

/-- Largest `time.Duration` (an int64 count of nanoseconds). -/
def maxDuration : Int := 2 ^ 63 - 1

/-- The call `time.Since(start)` read at clock value `now`: the difference of the two
monotonic readings, saturated to the range of `time.Duration`. -/
def Since (start now : Nat) : Int :=
  max (-maxDuration - 1) (min maxDuration ((now : Int) - (start : Int)))

/-- Quotient `n / d` rounded to the nearest integer, ties to the even one. -/
def roundHalfEven (n d : Nat) : Nat :=
  let q := n / d
  let r := n % d
  if 2 * r < d then q
  else if d < 2 * r then q + 1
  else if q % 2 = 0 then q else q + 1

/-- Floor of the binary logarithm of `n` (0 for `n < 2`), by halving at most `fuel` times. -/
def log2Floor : Nat → Nat → Nat
  | 0, _ => 0
  | fuel + 1, n => if n < 2 then 0 else log2Floor fuel (n / 2) + 1

/-- The float64 nearest to the positive rational `n / d` (ties to even), as a fraction whose
denominator is a power of two: a 53-bit significand scaled by a power of two. Exponent range
limits (overflow, subnormals) are left out; the values formed from an int64 duration lie
between `1e-9` and `2 ^ 34`. -/
def roundFloat64 (n d : Nat) : Nat × Nat :=
  if n = 0 ∨ d = 0 then (0, 1)
  else
    let ln := log2Floor n n
    let ld := log2Floor d d
    -- whether 2 ^ (ln - ld) ≤ n / d, so that ⌊log2 (n / d)⌋ is ln - ld and not one less
    let hi : Bool := if ld ≤ ln then d * 2 ^ (ln - ld) ≤ n else d ≤ n * 2 ^ (ld - ln)
    let fl : Int := (ln : Int) - (ld : Int) - (if hi then 0 else 1)
    -- the significand is n / d / 2 ^ (fl - 52), rounded to an integer
    if 52 ≤ fl then
      let s := (fl - 52).toNat
      (roundHalfEven n (d * 2 ^ s) * 2 ^ s, 1)
    else
      let s := (52 - fl).toNat
      (roundHalfEven (n * 2 ^ s) d, 2 ^ s)

/-- The method `Duration.Seconds` on a non-negative duration of `d` nanoseconds:
`float64(d / Second) + float64(d % Second) / 1e9` in float64 arithmetic. Both conversions are
exact for an int64 `d`; the division and the sum are rounded. -/
def Seconds (d : Nat) : Nat × Nat :=
  let sec := d / Second
  let nsec := d % Second
  let q := roundFloat64 nsec Second
  roundFloat64 (sec * q.2 + q.1) q.2

/-- Six decimal digits of `n`, zero padded. -/
def sixDigits (n : Nat) : GoString :=
  [digitByte (n / 100000), digitByte (n / 10000), digitByte (n / 1000),
   digitByte (n / 100), digitByte (n / 10), digitByte n]

/-- The call `strconv.FormatFloat(x, 'f', 6, 64)` for a non-negative float64 `x = v.1 / v.2`:
the exact value rounded to six decimals (ties to even), integer part, point, six digits. -/
def formatFixed6 (v : Nat × Nat) : GoString :=
  let scaled := roundHalfEven (v.1 * 1000000) v.2
  FormatUint (scaled / 1000000) ++ str "." ++ sixDigits (scaled % 1000000)

/-- Text of `strconv.FormatFloat(elapsed.Seconds(), 'f', 6, 64)` for a duration of `d`
nanoseconds; a negative duration gives the negated float, printed with a leading minus. -/
def formatSeconds (d : Int) : GoString :=
  if d < 0 then str "-" ++ formatFixed6 (Seconds d.natAbs) else formatFixed6 (Seconds d.natAbs)

/-! ## The controller and the handler -/

/-- The `Controller` struct. The two `*file.Handler` fields are the sinks of `World`. -/
structure Controller where
  DocumentRoot : GoString
  Port : Int
  GracefulShutdownTimeout : Nat
  Status : Int
deriving DecidableEq

/-- The part of `*http.Request` the handler reads: `req.URL.Path`. -/
structure Request where
  Path : GoString
deriving DecidableEq

/-- The function `New`: the controller it builds (lines 40-47). -/
def New (dir : GoString) (port : Int) : Controller :=
  { DocumentRoot := dir ++ str "public/"
    Port := port
    GracefulShutdownTimeout := 5 * Second
    Status := 0 }

def msgDown : GoString := str "The server is currently down and not serving requests."
def msgMaintenance : GoString :=
  str "The server is currently maintenance mode and not serving requests."
def msgRestarting : GoString := str "The server is currently restarting."

/-- Lines 79-84: the filesystem path of a request. `req.URL.Path[1:]` panics on the empty
path (`none`). -/
def fsPath (con : Controller) (req : Request) : Option GoString :=
  match req.Path with
  | [] => none
  | _ :: path =>
    if path.length = 0 then some (con.DocumentRoot ++ str "index.html")
    else some (con.DocumentRoot ++ path)

/-- The call `io.Copy(res, f)` on the response: the bytes copied reach the response through
`Write`; nothing is written when no byte was copied. -/
def ioCopy (res : Response) (copied : List UInt8) : Response :=
  if copied.length = 0 then res else res.Write copied

/-- Lines 86-112 of `ServeHTTP`, from `os.Open(path)` on. The controller's two loggers are
the sinks of `w`. -/
def serveFile (env : Env) (path : GoString) (res : Response) (w : World) :
    Response × World :=
  let w := w.record (Event.osOpen path)
  match env.osOpen path with
  | .error err =>
    let w := PublicLogger.Write w (path ++ str "::" ++ Itoa StatusNotFound ++ str "::" ++ err)
    let w := w.record (Event.httpThrowStatus StatusNotFound)
    (HttpThrowStatus StatusNotFound (env.statusBody StatusNotFound) res, w)
  | .ok data =>
    let w := { w with openFiles := path :: w.openFiles }
    let w := w.record (Event.getContentType path)
    match env.getContentType path with
    | .error err =>
      let w := PublicLogger.Write w
        (path ++ str "::" ++ Itoa StatusUnsupportedMediaType ++ str "::" ++ err)
      let w := w.record (Event.httpThrowStatus StatusUnsupportedMediaType)
      (HttpThrowStatus StatusUnsupportedMediaType
        (env.statusBody StatusUnsupportedMediaType) res, w)
    | .ok contentType =>
      let res := res.headerAdd (str "Content-Type") contentType
      let w := w.record (Event.headerAdd (str "Content-Type") contentType)
      let w := w.record (Event.ioCopy path)
      match env.ioCopy path with
      | some (n, err) =>
        let res := ioCopy res (data.take n)
        let w := PublicLogger.Write w
          (path ++ str "::" ++ Itoa StatusInternalServerError ++ str "::" ++ err)
        let w := w.record (Event.httpThrowStatus StatusInternalServerError)
        (HttpThrowStatus StatusInternalServerError
          (env.statusBody StatusInternalServerError) res, w)
      | none =>
        let res := ioCopy res data
        let elapsedTime := Since env.startTime env.endTime
        let w := LoadTimeLogger.Write w
          (path ++ str " rendered in " ++ formatSeconds elapsedTime ++ str " seconds")
        (res, w)

/-- The method `(*Controller).ServeHTTP`: the status switch of lines 65-77 (no default case,
so any other value leaves the switch like `1`), then the file is served. -/
def ServeHTTP (con : Controller) (env : Env) (req : Request) (res : Response) (w : World) :
    Option (Response × World) :=
  if con.Status = 0 then
    some (httpError res msgDown StatusServiceUnavailable,
      w.record (Event.httpError msgDown StatusServiceUnavailable))
  else if con.Status = 1 then
    (fsPath con req).map (fun path => serveFile env path res w)
  else if con.Status = 2 then
    some (httpError res msgMaintenance StatusServiceUnavailable,
      w.record (Event.httpError msgMaintenance StatusServiceUnavailable))
  else if con.Status = 3 then
    some (httpError res msgRestarting StatusServiceUnavailable,
      w.record (Event.httpError msgRestarting StatusServiceUnavailable))
  else
    (fsPath con req).map (fun path => serveFile env path res w)

/-! ## Concrete inputs used as witnesses -/

/-- Document root `/srv/public/`, status `1`. -/
def exCon : Controller :=
  { DocumentRoot := str "/srv/public/", Port := 2082, GracefulShutdownTimeout := 5 * Second,
    Status := 1 }

/-- Request for `/a.txt`. -/
def exReq : Request := ⟨str "/a.txt"⟩

/-- Path the request `/a.txt` maps to. -/
def exPath : GoString := str "/srv/public/a.txt"

/-- Contents of the example file: the three bytes of `hi\n`. -/
def exData : List UInt8 := [104, 105, 10]

/-- An empty world: no open handle, empty sinks, empty trace. -/
def exWorld : World := ⟨[], [], [], []⟩

/-- Everything succeeds: the file opens, resolves to `text/plain`, and is copied in full. -/
def exEnvOk : Env :=
  { osOpen := fun _ => .ok exData
    getContentType := fun _ => .ok (str "text/plain")
    ioCopy := fun _ => none
    statusBody := fun code => Itoa code
    startTime := 1000
    endTime := 1234568891 }

/-- The file does not open. -/
def exEnvMissing : Env :=
  { exEnvOk with osOpen := fun _ => .error (str "no such file or directory") }

/-- The file opens, the resolver does not know its type. -/
def exEnvUnknownType : Env :=
  { exEnvOk with getContentType := fun _ => .error (str "unknown type") }

/-- The copy stops with an error after two bytes went out. -/
def exEnvCopyFails : Env :=
  { exEnvOk with ioCopy := fun _ => some (2, str "input/output error") }

/-- A controller whose status is 3 (restarting). -/
def exConRestarting : Controller := { exCon with Status := 3 }

/-- A controller whose status is 2 (maintenance). -/
def exConMaintenance : Controller := { exCon with Status := 2 }

/-- A controller whose status is 4, a value outside the four documented ones. -/
def exConUnknown : Controller := { exCon with Status := 4 }

/-! ## Helper lemmas -/

theorem itoa_404 : Itoa (StatusNotFound : Nat) = str "404" := by decide

theorem itoa_415 : Itoa (StatusUnsupportedMediaType : Nat) = str "415" := by decide

theorem itoa_500 : Itoa (StatusInternalServerError : Nat) = str "500" := by decide

theorem sep_404 : str "::404::" = str "::" ++ (str "404" ++ str "::") := by decide

theorem sep_415 : str "::415::" = str "::" ++ (str "415" ++ str "::") := by decide

theorem sep_500 : str "::500::" = str "::" ++ (str "500" ++ str "::") := by decide

/-- Outcome of lines 86-92: the file does not open. -/
theorem serveFile_open_error (env : Env) (path err : GoString) (res : Response) (w : World)
    (ho : env.osOpen path = .error err) :
    serveFile env path res w =
      (HttpThrowStatus StatusNotFound (env.statusBody StatusNotFound) res,
       { openFiles := w.openFiles
         errorSink := w.errorSink ++ [path ++ str "::404::" ++ err]
         loadSink := w.loadSink
         trace := w.trace ++ [Event.osOpen path,
           Event.publicLog (path ++ str "::404::" ++ err),
           Event.httpThrowStatus StatusNotFound] }) := by
  simp only [serveFile, ho, World.record, PublicLogger.Write, itoa_404, List.append_assoc]
  rw [sep_404]
  simp

/-- Outcome of lines 94-100: the file opens, the content type does not resolve. -/
theorem serveFile_type_error (env : Env) (path err : GoString) (data : List UInt8)
    (res : Response) (w : World)
    (ho : env.osOpen path = .ok data) (hc : env.getContentType path = .error err) :
    serveFile env path res w =
      (HttpThrowStatus StatusUnsupportedMediaType
        (env.statusBody StatusUnsupportedMediaType) res,
       { openFiles := path :: w.openFiles
         errorSink := w.errorSink ++ [path ++ str "::415::" ++ err]
         loadSink := w.loadSink
         trace := w.trace ++ [Event.osOpen path, Event.getContentType path,
           Event.publicLog (path ++ str "::415::" ++ err),
           Event.httpThrowStatus StatusUnsupportedMediaType] }) := by
  simp only [serveFile, ho, hc, World.record, PublicLogger.Write, itoa_415, List.append_assoc]
  rw [sep_415]
  simp

/-- Outcome of lines 102-109: the copy stops with an error after `n` bytes. -/
theorem serveFile_copy_error (env : Env) (path m err : GoString) (data : List UInt8) (n : Nat)
    (res : Response) (w : World)
    (ho : env.osOpen path = .ok data) (hc : env.getContentType path = .ok m)
    (hcopy : env.ioCopy path = some (n, err)) :
    serveFile env path res w =
      (HttpThrowStatus StatusInternalServerError (env.statusBody StatusInternalServerError)
        (ioCopy (res.headerAdd (str "Content-Type") m) (data.take n)),
       { openFiles := path :: w.openFiles
         errorSink := w.errorSink ++ [path ++ str "::500::" ++ err]
         loadSink := w.loadSink
         trace := w.trace ++ [Event.osOpen path, Event.getContentType path,
           Event.headerAdd (str "Content-Type") m, Event.ioCopy path,
           Event.publicLog (path ++ str "::500::" ++ err),
           Event.httpThrowStatus StatusInternalServerError] }) := by
  simp only [serveFile, ho, hc, hcopy, World.record, PublicLogger.Write, itoa_500,
    List.append_assoc]
  rw [sep_500]
  simp

/-- Outcome of lines 102-112: the copy reaches the end of the file. -/
theorem serveFile_ok (env : Env) (path m : GoString) (data : List UInt8)
    (res : Response) (w : World)
    (ho : env.osOpen path = .ok data) (hc : env.getContentType path = .ok m)
    (hcopy : env.ioCopy path = none) :
    serveFile env path res w =
      (ioCopy (res.headerAdd (str "Content-Type") m) data,
       { openFiles := path :: w.openFiles
         errorSink := w.errorSink
         loadSink := w.loadSink ++ [path ++ str " rendered in " ++
           formatSeconds (Since env.startTime env.endTime) ++ str " seconds"]
         trace := w.trace ++ [Event.osOpen path, Event.getContentType path,
           Event.headerAdd (str "Content-Type") m, Event.ioCopy path,
           Event.loadLog (path ++ str " rendered in " ++
             formatSeconds (Since env.startTime env.endTime) ++ str " seconds")] }) := by
  simp [serveFile, ho, hc, hcopy, World.record, LoadTimeLogger.Write]

/-- With status `1` the handler serves the file at the computed path. -/
theorem serveHTTP_normal (con : Controller) (env : Env) (req : Request) (res : Response)
    (w : World) (path : GoString) (hs : con.Status = 1) (hp : fsPath con req = some path) :
    ServeHTTP con env req res w = some (serveFile env path res w) := by
  simp [ServeHTTP, hs, hp]

/-- A full copy onto a fresh response that carries one header line. -/
theorem ioCopy_fresh (k v : GoString) (data : List UInt8) :
    (ioCopy (Response.fresh.headerAdd k v) data).sentStatus = StatusOK ∧
    (ioCopy (Response.fresh.headerAdd k v) data).sentHeader = [(k, v)] ∧
    (ioCopy (Response.fresh.headerAdd k v) data).body = data := by
  cases data with
  | nil => simp [ioCopy, Response.fresh, Response.headerAdd, Response.sentStatus,
      Response.sentHeader]
  | cons b bs => simp [ioCopy, Response.fresh, Response.headerAdd, Response.sentStatus,
      Response.sentHeader, Response.Write, Response.WriteHeader]

theorem digitByte_isDigit (d : Nat) : isDigit (digitByte d) := by
  have h : d % 10 < 10 := Nat.mod_lt _ (by decide)
  unfold digitByte
  generalize d % 10 = k at h
  interval_cases k <;> decide

theorem formatBits_digits (fuel n : Nat) (acc : GoString) (hacc : ∀ b ∈ acc, isDigit b) :
    ∀ b ∈ formatBits fuel n acc, isDigit b := by
  induction fuel generalizing n acc with
  | zero => simpa [formatBits] using hacc
  | succ fuel ih =>
    have hacc1 : ∀ b ∈ digitByte (n % 10) :: acc, isDigit b := by
      intro b hb
      rcases List.mem_cons.mp hb with rfl | hb
      · exact digitByte_isDigit _
      · exact hacc b hb
    unfold formatBits
    by_cases h : n / 10 = 0
    · simpa [h] using hacc1
    · simpa [h] using ih (n / 10) _ hacc1

theorem formatBits_ne_nil (fuel n : Nat) (acc : GoString) (hacc : acc ≠ []) :
    formatBits fuel n acc ≠ [] := by
  induction fuel generalizing n acc with
  | zero => simpa [formatBits] using hacc
  | succ fuel ih =>
    unfold formatBits
    by_cases h : n / 10 = 0
    · simp [h]
    · simpa [h] using ih (n / 10) _ (List.cons_ne_nil _ _)

theorem FormatUint_digits (n : Nat) : ∀ b ∈ FormatUint n, isDigit b :=
  formatBits_digits _ _ _ (by simp)

theorem FormatUint_ne_nil (n : Nat) : FormatUint n ≠ [] := by
  unfold FormatUint formatBits
  by_cases h : n / 10 = 0
  · simp [h]
  · simpa [h] using formatBits_ne_nil n (n / 10) _ (List.cons_ne_nil _ _)

theorem sixDigits_digits (n : Nat) : ∀ b ∈ sixDigits n, isDigit b := by
  intro b hb
  simp only [sixDigits, List.mem_cons, List.mem_singleton, List.not_mem_nil, or_false] at hb
  rcases hb with rfl | rfl | rfl | rfl | rfl | rfl <;> exact digitByte_isDigit _

/-- Shape of the fixed-point text: digits, a point, six digits. -/
theorem formatFixed6_shape (v : Nat × Nat) :
    ∃ ip fp, formatFixed6 v = ip ++ str "." ++ fp ∧ ip ≠ [] ∧ (∀ b ∈ ip, isDigit b) ∧
      fp.length = 6 ∧ ∀ b ∈ fp, isDigit b :=
  ⟨_, _, rfl, FormatUint_ne_nil _, FormatUint_digits _, rfl, sixDigits_digits _⟩

/-- With a monotonic clock the elapsed time is not negative. -/
theorem Since_nonneg (start now : Nat) (h : start ≤ now) : 0 ≤ Since start now := by
  unfold Since maxDuration
  omega

theorem formatSeconds_shape (d : Int) (h : 0 ≤ d) :
    ∃ ip fp, formatSeconds d = ip ++ str "." ++ fp ∧ ip ≠ [] ∧ (∀ b ∈ ip, isDigit b) ∧
      fp.length = 6 ∧ ∀ b ∈ fp, isDigit b := by
  unfold formatSeconds
  rw [if_neg (not_lt.mpr h)]
  exact formatFixed6_shape _

theorem digitByte_toNat (d : Nat) : (digitByte d).toNat - 48 = d % 10 := by
  have h : d % 10 < 10 := Nat.mod_lt _ (by decide)
  unfold digitByte
  generalize d % 10 = k at h
  interval_cases k <;> decide

theorem decimalValue_append_digit (ds : GoString) (d : Nat) :
    decimalValue (ds ++ [digitByte d]) = decimalValue ds * 10 + d % 10 := by
  simp [decimalValue, List.foldl_append, digitByte_toNat]

theorem formatBits_value (fuel n : Nat) (acc : GoString) (h : n < 10 ^ fuel) :
    ∃ ds, formatBits fuel n acc = ds ++ acc ∧ decimalValue ds = n := by
  induction fuel generalizing n acc with
  | zero =>
    refine ⟨[], by simp [formatBits], ?_⟩
    simp at h
    simp [decimalValue, h]
  | succ fuel ih =>
    unfold formatBits
    by_cases h0 : n / 10 = 0
    · refine ⟨[digitByte (n % 10)], by simp [h0], ?_⟩
      have := decimalValue_append_digit [] (n % 10)
      simp only [List.nil_append] at this
      rw [this]
      simp [decimalValue]
      omega
    · have hlt : n / 10 < 10 ^ fuel := by
        rw [pow_succ] at h
        omega
      obtain ⟨ds, hds, hv⟩ := ih (n / 10) (digitByte (n % 10) :: acc) hlt
      refine ⟨ds ++ [digitByte (n % 10)], by simp [h0, hds], ?_⟩
      rw [decimalValue_append_digit, hv]
      omega

theorem decimalValue_FormatUint (n : Nat) : decimalValue (FormatUint n) = n := by
  have h : n < 10 ^ (n + 1) :=
    lt_of_lt_of_le (Nat.lt_pow_self (by decide) n) (Nat.pow_le_pow_right (by decide) (by omega))
  obtain ⟨ds, hds, hv⟩ := formatBits_value (n + 1) n [] h
  unfold FormatUint
  rw [hds]
  simpa using hv

theorem decimalValue_sixDigits (n : Nat) (h : n < 1000000) : decimalValue (sixDigits n) = n := by
  simp only [sixDigits, decimalValue, List.foldl_cons, List.foldl_nil, digitByte_toNat]
  omega

/-- Rounding to the nearest integer is off by at most one half. -/
theorem roundHalfEven_bounds (n d : Nat) (hd : 0 < d) :
    2 * (roundHalfEven n d * d) ≤ 2 * n + d ∧ 2 * n ≤ 2 * (roundHalfEven n d * d) + d := by
  have hdm := Nat.div_add_mod n d
  have hr := Nat.mod_lt n hd
  have hmul : (n / d + 1) * d = n / d * d + d := by ring
  have hcomm : d * (n / d) = n / d * d := Nat.mul_comm _ _
  unfold roundHalfEven
  simp only
  split_ifs <;> omega


theorem log2Floor_bounds (fuel n : Nat) (hf : n ≤ fuel) (hn : 0 < n) :
    2 ^ log2Floor fuel n ≤ n ∧ n < 2 ^ (log2Floor fuel n + 1) := by
  induction fuel generalizing n with
  | zero => omega
  | succ fuel ih =>
    unfold log2Floor
    by_cases h2 : n < 2
    · have : n = 1 := by omega
      simp [this]
    · simp only [h2, if_false]
      obtain ⟨h1, h3⟩ := ih (n / 2) (by omega) (by omega)
      rw [pow_succ] at h3 ⊢
      rw [pow_succ]
      constructor <;> omega

/-- The two forms of a float64 rounding: the significand `m` is the rounded quotient of a
scaled fraction that is at least `2 ^ 52`. -/
theorem roundFloat64_cases (n d : Nat) (hn : 0 < n) (hd : 0 < d) :
    ∃ s, (roundFloat64 n d = (roundHalfEven n (d * 2 ^ s) * 2 ^ s, 1) ∧
            2 ^ 52 * (d * 2 ^ s) ≤ n) ∨
         (roundFloat64 n d = (roundHalfEven (n * 2 ^ s) d, 2 ^ s) ∧ 2 ^ 52 * d ≤ n * 2 ^ s) := by
  obtain ⟨hk1, -⟩ := log2Floor_bounds n n le_rfl hn
  obtain ⟨-, hj2⟩ := log2Floor_bounds d d le_rfl hd
  unfold roundFloat64
  rw [if_neg (by omega)]
  simp only
  generalize log2Floor n n = k at hk1
  generalize log2Floor d d = j at hj2
  -- the lower bound 2 ^ fl ≤ n / d in the two shapes it is used in
  have key : ∀ fl : Int, (fl = (k : Int) - j ∧ (if j ≤ k then d * 2 ^ (k - j) ≤ n
        else d ≤ n * 2 ^ (j - k))) ∨ fl = (k : Int) - j - 1 →
      (52 ≤ fl → 2 ^ 52 * (d * 2 ^ (fl - 52).toNat) ≤ n) ∧
      (¬ 52 ≤ fl → 2 ^ 52 * d ≤ n * 2 ^ (52 - fl).toNat) := by
    intro fl hfl
    rcases hfl with ⟨hfl, hhi⟩ | hfl
    · constructor
      · intro h52
        have hjk : j ≤ k := by omega
        rw [if_pos hjk] at hhi
        have hs : k - j = (fl - 52).toNat + 52 := by omega
        rw [hs, pow_add] at hhi
        calc 2 ^ 52 * (d * 2 ^ (fl - 52).toNat) = d * (2 ^ (fl - 52).toNat * 2 ^ 52) := by ring
          _ ≤ n := hhi
      · intro h52
        by_cases hjk : j ≤ k
        · rw [if_pos hjk] at hhi
          have hs : (52 - fl).toNat + (k - j) = 52 := by omega
          calc 2 ^ 52 * d = d * 2 ^ (k - j) * 2 ^ (52 - fl).toNat := by
                rw [← hs, pow_add]; ring
            _ ≤ n * 2 ^ (52 - fl).toNat := Nat.mul_le_mul_right _ hhi
        · rw [if_neg hjk] at hhi
          have hs : (52 - fl).toNat = (j - k) + 52 := by omega
          calc 2 ^ 52 * d ≤ 2 ^ 52 * (n * 2 ^ (j - k)) := Nat.mul_le_mul_left _ hhi
            _ = n * 2 ^ (52 - fl).toNat := by rw [hs, pow_add]; ring
    · constructor
      · intro h52
        have hs : k = (fl - 52).toNat + 52 + (j + 1) := by omega
        have h1 : 2 ^ 52 * (d * 2 ^ (fl - 52).toNat) ≤
            2 ^ 52 * (2 ^ (j + 1) * 2 ^ (fl - 52).toNat) :=
          Nat.mul_le_mul_left _ (Nat.mul_le_mul_right _ hj2.le)
        have h2 : 2 ^ 52 * (2 ^ (j + 1) * 2 ^ (fl - 52).toNat) = 2 ^ k := by
          rw [hs, pow_add, pow_add]; ring
        omega
      · intro h52
        have hs : (52 - fl).toNat + k = 52 + (j + 1) := by omega
        have h1 : 2 ^ 52 * d ≤ 2 ^ 52 * 2 ^ (j + 1) := Nat.mul_le_mul_left _ hj2.le
        have h2 : 2 ^ 52 * 2 ^ (j + 1) = 2 ^ k * 2 ^ (52 - fl).toNat := by
          rw [← pow_add, ← pow_add, Nat.add_comm k, hs]
        have h3 : 2 ^ k * 2 ^ (52 - fl).toNat ≤ n * 2 ^ (52 - fl).toNat :=
          Nat.mul_le_mul_right _ hk1
        omega
  by_cases hhi : (if j ≤ k then decide (d * 2 ^ (k - j) ≤ n) else decide (d ≤ n * 2 ^ (j - k)))
      = true
  · have hfl := key ((k : Int) - j - 0) (Or.inl ⟨by omega, by
      by_cases hjk : j ≤ k <;> simp [hjk] at hhi ⊢ <;> exact hhi⟩)
    simp only [hhi, if_true]
    by_cases h52 : (52 : Int) ≤ (k : Int) - j - 0
    · rw [if_pos h52]
      exact ⟨_, Or.inl ⟨rfl, hfl.1 h52⟩⟩
    · rw [if_neg h52]
      exact ⟨_, Or.inr ⟨rfl, hfl.2 h52⟩⟩
  · have hfl := key ((k : Int) - j - 1) (Or.inr rfl)
    simp only [hhi, Bool.false_eq_true, if_false]
    by_cases h52 : (52 : Int) ≤ (k : Int) - j - 1
    · rw [if_pos h52]
      exact ⟨_, Or.inl ⟨rfl, hfl.1 h52⟩⟩
    · rw [if_neg h52]
      exact ⟨_, Or.inr ⟨rfl, hfl.2 h52⟩⟩


/-- In the rationals: rounding to the nearest integer is off by at most one half. -/
theorem roundHalfEven_err (n d : Nat) (hd : 0 < d) :
    |(roundHalfEven n d : ℚ) - (n : ℚ) / d| ≤ 1 / 2 := by
  obtain ⟨h1, h2⟩ := roundHalfEven_bounds n d hd
  have hdq : (0 : ℚ) < d := by exact_mod_cast hd
  have e1 : (2 : ℚ) * (roundHalfEven n d * d) ≤ 2 * n + d := by exact_mod_cast h1
  have e2 : (2 : ℚ) * n ≤ 2 * (roundHalfEven n d * d) + d := by exact_mod_cast h2
  have hx : (n : ℚ) / d * d = n := div_mul_cancel₀ _ hdq.ne.symm
  generalize (n : ℚ) / d = x at hx
  generalize (roundHalfEven n d : ℚ) = m at e1 e2
  rw [abs_le]
  constructor
  · by_contra hneg
    push_neg at hneg
    nlinarith [mul_pos (sub_pos.mpr hneg) hdq]
  · by_contra hneg
    push_neg at hneg
    nlinarith [mul_pos (sub_pos.mpr hneg) hdq]

/-- Relative error of one float64 rounding: at most `2 ^ (-53)`. -/
theorem roundFloat64_err (n d : Nat) (hd : 0 < d) :
    0 < (roundFloat64 n d).2 ∧
    |((roundFloat64 n d).1 : ℚ) / (roundFloat64 n d).2 - (n : ℚ) / d| ≤ (n : ℚ) / d / 2 ^ 53 := by
  rcases Nat.eq_zero_or_pos n with hn | hn
  · subst hn
    simp [roundFloat64]
  have hdq : (0 : ℚ) < d := by exact_mod_cast hd
  obtain ⟨s, ⟨hr, hb⟩ | ⟨hr, hb⟩⟩ := roundFloat64_cases n d hn hd
  · rw [hr]
    refine ⟨Nat.one_pos, ?_⟩
    have hp : (0 : ℚ) < 2 ^ s := by positivity
    have hD : 0 < d * 2 ^ s := Nat.mul_pos hd (by positivity)
    have herr := roundHalfEven_err n (d * 2 ^ s) hD
    have hbq : (2 : ℚ) ^ 52 * (d * 2 ^ s) ≤ n := by exact_mod_cast hb
    push_cast at herr ⊢
    have hx : (n : ℚ) / d * d = n := div_mul_cancel₀ _ hdq.ne.symm
    have hy : (n : ℚ) / (d * 2 ^ s) * 2 ^ s = n / d := by
      field_simp
      ring
    generalize (roundHalfEven n (d * 2 ^ s) : ℚ) = m at herr
    generalize (n : ℚ) / (d * 2 ^ s) = y at herr hy
    rw [← hy] at hx ⊢
    rw [abs_le] at herr ⊢
    have hy52 : (2 : ℚ) ^ 52 ≤ y := by
      by_contra hneg
      push_neg at hneg
      nlinarith [mul_pos (sub_pos.mpr hneg) (mul_pos hdq hp)]
    obtain ⟨hl, hu⟩ := herr
    constructor <;> norm_num at hy52 ⊢ <;> nlinarith
  · rw [hr]
    have hp : (0 : ℚ) < 2 ^ s := by positivity
    refine ⟨by positivity, ?_⟩
    have herr := roundHalfEven_err (n * 2 ^ s) d hd
    have hbq : (2 : ℚ) ^ 52 * d ≤ n * 2 ^ s := by exact_mod_cast hb
    push_cast at herr ⊢
    have hx : (n : ℚ) / d * d = n := div_mul_cancel₀ _ hdq.ne.symm
    have hy : (n : ℚ) * 2 ^ s / d = n / d * 2 ^ s := by
      field_simp
    rw [hy] at herr
    generalize (roundHalfEven (n * 2 ^ s) d : ℚ) = m at herr
    have hz : m / 2 ^ s * 2 ^ s = m := div_mul_cancel₀ _ hp.ne.symm
    generalize m / (2 : ℚ) ^ s = z at hz
    generalize (n : ℚ) / d = y at herr hx ⊢
    generalize (2 : ℚ) ^ s = p at hp hbq herr hz
    rw [abs_le] at herr ⊢
    obtain ⟨hl, hu⟩ := herr
    have hy52 : (2 : ℚ) ^ 52 ≤ y * p := by
      by_contra hneg
      push_neg at hneg
      nlinarith [mul_pos (sub_pos.mpr hneg) hdq]
    subst hz
    constructor
    · by_contra hneg
      push_neg at hneg
      norm_num at hy52
      nlinarith [mul_pos (sub_pos.mpr hneg) hp]
    · by_contra hneg
      push_neg at hneg
      norm_num at hy52
      nlinarith [mul_pos (sub_pos.mpr hneg) hp]


/-- Error of `Duration.Seconds`: the float64 result is within `(T + 2) / 2 ^ 53` of the exact
number of seconds `T`. -/
theorem Seconds_err (dn : Nat) :
    0 < (Seconds dn).2 ∧
    |((Seconds dn).1 : ℚ) / (Seconds dn).2 - (dn : ℚ) / 1000000000| ≤
      ((dn : ℚ) / 1000000000 + 2) / 2 ^ 53 := by
  unfold Seconds
  simp only
  obtain ⟨hq2, hqe⟩ := roundFloat64_err (dn % Second) Second (by decide)
  obtain ⟨hr2, hre⟩ := roundFloat64_err
    (dn / Second * (roundFloat64 (dn % Second) Second).2 + (roundFloat64 (dn % Second) Second).1)
    (roundFloat64 (dn % Second) Second).2 hq2
  refine ⟨hr2, ?_⟩
  have hq2q : (0 : ℚ) < ((roundFloat64 (dn % Second) Second).2 : ℚ) := by exact_mod_cast hq2
  have hsum : ((dn / Second * (roundFloat64 (dn % Second) Second).2 +
      (roundFloat64 (dn % Second) Second).1 : ℕ) : ℚ) / (roundFloat64 (dn % Second) Second).2 =
      ((dn / Second : ℕ) : ℚ) +
        ((roundFloat64 (dn % Second) Second).1 : ℚ) / (roundFloat64 (dn % Second) Second).2 := by
    push_cast
    field_simp
  rw [hsum] at hre
  have hsplit : (dn : ℚ) / 1000000000 =
      ((dn / Second : ℕ) : ℚ) + ((dn % Second : ℕ) : ℚ) / 1000000000 := by
    have h := Nat.div_add_mod dn Second
    have hq : ((Second * (dn / Second) + dn % Second : ℕ) : ℚ) = dn := by exact_mod_cast h
    rw [← hq]
    push_cast
    simp only [Second]
    push_cast
    ring
  have hlt : ((dn % Second : ℕ) : ℚ) / 1000000000 < 1 := by
    have h : dn % Second < 1000000000 := Nat.mod_lt _ (by decide)
    have hq : ((dn % Second : ℕ) : ℚ) < 1000000000 := by exact_mod_cast h
    rw [div_lt_one (by norm_num)]
    exact hq
  have hnn : (0 : ℚ) ≤ ((dn % Second : ℕ) : ℚ) / 1000000000 := by positivity
  have hsec : (0 : ℚ) ≤ ((dn / Second : ℕ) : ℚ) := by positivity
  have hS : ((Second : ℕ) : ℚ) = 1000000000 := by simp [Second]
  rw [hS] at hqe
  rw [hsplit]
  generalize ((dn / Second : ℕ) : ℚ) = sec at *
  generalize ((dn % Second : ℕ) : ℚ) / 1000000000 = f at *
  generalize ((roundFloat64 (dn % Second) Second).1 : ℚ) /
    (roundFloat64 (dn % Second) Second).2 = Q at *
  generalize ((roundFloat64 (dn / Second * (roundFloat64 (dn % Second) Second).2 +
    (roundFloat64 (dn % Second) Second).1) (roundFloat64 (dn % Second) Second).2).1 : ℚ) /
    (roundFloat64 (dn / Second * (roundFloat64 (dn % Second) Second).2 +
    (roundFloat64 (dn % Second) Second).1) (roundFloat64 (dn % Second) Second).2).2 = X at *
  rw [abs_le] at hqe hre ⊢
  obtain ⟨hq1, hq3⟩ := hqe
  obtain ⟨hr1, hr3⟩ := hre
  norm_num at hq1 hq3 hr1 hr3 ⊢
  constructor <;> linarith

/-- The microsecond count printed for a duration of `dn` nanoseconds is `dn / 1000` rounded,
up to the error of the float64 arithmetic. -/
theorem micros_bounds (dn : Nat) :
    1000 * roundHalfEven ((Seconds dn).1 * 1000000) (Seconds dn).2 * 2 ^ 53 ≤
        (dn + 500) * 2 ^ 53 + dn + 2000000000 ∧
    dn * 2 ^ 53 ≤
        (1000 * roundHalfEven ((Seconds dn).1 * 1000000) (Seconds dn).2 + 500) * 2 ^ 53 +
          dn + 2000000000 := by
  obtain ⟨h2, herr⟩ := Seconds_err dn
  have hround := roundHalfEven_err ((Seconds dn).1 * 1000000) (Seconds dn).2 h2
  have h2q : (0 : ℚ) < ((Seconds dn).2 : ℚ) := by exact_mod_cast h2
  have hmul : (((Seconds dn).1 * 1000000 : ℕ) : ℚ) / (Seconds dn).2 =
      ((Seconds dn).1 : ℚ) / (Seconds dn).2 * 1000000 := by
    push_cast
    field_simp
  rw [hmul] at hround
  generalize (roundHalfEven ((Seconds dn).1 * 1000000) (Seconds dn).2) = m at hround ⊢
  generalize ((Seconds dn).1 : ℚ) / (Seconds dn).2 = X at hround herr
  rw [abs_le] at hround herr
  obtain ⟨a1, a2⟩ := hround
  obtain ⟨b1, b2⟩ := herr
  norm_num at a1 a2 b1 b2
  have c1 : (1000 * m * 2 ^ 53 : ℚ) ≤ (dn + 500) * 2 ^ 53 + dn + 2000000000 := by
    norm_num
    linarith
  have c2 : (dn * 2 ^ 53 : ℚ) ≤ (1000 * m + 500) * 2 ^ 53 + dn + 2000000000 := by
    norm_num
    linarith
  exact ⟨by exact_mod_cast c1, by exact_mod_cast c2⟩

/-- Up to `2 ^ 52` ns (52 days) the printed microsecond count is a nearest integer to the
elapsed microseconds. -/
theorem micros_nearest (dn : Nat) (h : dn ≤ 2 ^ 52) :
    1000 * roundHalfEven ((Seconds dn).1 * 1000000) (Seconds dn).2 ≤ dn + 500 ∧
    dn ≤ 1000 * roundHalfEven ((Seconds dn).1 * 1000000) (Seconds dn).2 + 500 := by
  obtain ⟨h1, h2⟩ := micros_bounds dn
  generalize roundHalfEven ((Seconds dn).1 * 1000000) (Seconds dn).2 = m at h1 h2 ⊢
  norm_num at h h1 h2
  constructor <;> omega

/-- The text printed for a non-negative duration: its shape, and the number it denotes. -/
theorem formatSeconds_spec (d : Int) (h : 0 ≤ d) :
    ∃ ip fp, formatSeconds d = ip ++ str "." ++ fp ∧ ip ≠ [] ∧ (∀ b ∈ ip, isDigit b) ∧
      fp.length = 6 ∧ (∀ b ∈ fp, isDigit b) ∧
      decimalValue ip * 1000000 + decimalValue fp =
        roundHalfEven ((Seconds d.natAbs).1 * 1000000) (Seconds d.natAbs).2 := by
  unfold formatSeconds
  rw [if_neg (not_lt.mpr h)]
  refine ⟨_, _, rfl, FormatUint_ne_nil _, FormatUint_digits _, rfl, sixDigits_digits _, ?_⟩
  rw [decimalValue_FormatUint, decimalValue_sixDigits _ (Nat.mod_lt _ (by decide))]
  exact Nat.div_add_mod' _ _

/-- With a monotonic clock `time.Since` is the difference of the readings, saturated. -/
theorem Since_natAbs (start now : Nat) (h : start ≤ now) :
    (Since start now).natAbs = min (now - start) (2 ^ 63 - 1) := by
  unfold Since maxDuration
  omega

/-- The switch has no default case: a status other than 0, 2 and 3 serves the file. -/
theorem serveHTTP_serves (con : Controller) (env : Env) (req : Request) (res : Response)
    (w : World) (path : GoString)
    (h0 : con.Status ≠ 0) (h2 : con.Status ≠ 2) (h3 : con.Status ≠ 3)
    (hp : fsPath con req = some path) :
    ServeHTTP con env req res w = some (serveFile env path res w) := by
  unfold ServeHTTP
  by_cases h1 : con.Status = 1 <;> simp [h0, h1, h2, h3, hp]

/-- Status sent after a failed copy onto a fresh response with one header line: 500 when no
byte had been copied, 200 when the copied bytes had already written the header. -/
theorem copy_error_status (k v : GoString) (copied body : List UInt8) :
    (HttpThrowStatus StatusInternalServerError body
      (ioCopy (Response.fresh.headerAdd k v) copied)).sentStatus =
      if copied = [] then 500 else 200 := by
  cases copied with
  | nil => simp [ioCopy, HttpThrowStatus, Response.fresh, Response.headerAdd,
      Response.sentStatus, Response.Write, Response.WriteHeader, StatusInternalServerError]
  | cons b bs => simp [ioCopy, HttpThrowStatus, Response.fresh, Response.headerAdd,
      Response.sentStatus, Response.Write, Response.WriteHeader, StatusOK]

/-! ## The claims -/

/-- C1: with status 1, when the file at the computed path opens, the resolver answers `m`
and the copy succeeds, the response has status 200, carries exactly the header line
`Content-Type: m`, and its body is exactly the bytes of the file. -/
theorem C1_success_response (con : Controller) (env : Env) (req : Request) (w : World)
    (path m : GoString) (data : List UInt8)
    (hs : con.Status = 1) (hp : fsPath con req = some path)
    (ho : env.osOpen path = .ok data) (hc : env.getContentType path = .ok m)
    (hcopy : env.ioCopy path = none) :
    ∃ r w1, ServeHTTP con env req Response.fresh w = some (r, w1) ∧
      r.sentStatus = 200 ∧ r.sentHeader = [(str "Content-Type", m)] ∧ r.body = data := by
  rw [serveHTTP_normal con env req _ w path hs hp, serveFile_ok env path m data _ w ho hc hcopy]
  exact ⟨_, _, rfl, ioCopy_fresh _ _ _⟩

/-- C1 at `/a.txt` with the environment where everything succeeds. -/
theorem C1_success_response_witness :
    exCon.Status = 1 ∧ fsPath exCon exReq = some exPath ∧
    exEnvOk.osOpen exPath = .ok exData ∧
    exEnvOk.getContentType exPath = .ok (str "text/plain") ∧
    exEnvOk.ioCopy exPath = none ∧
    ∃ r w1, ServeHTTP exCon exEnvOk exReq Response.fresh exWorld = some (r, w1) ∧
      r.sentStatus = 200 ∧ r.sentHeader = [(str "Content-Type", str "text/plain")] ∧
      r.body = exData :=
  ⟨by decide, by decide, rfl, rfl, rfl,
   C1_success_response exCon exEnvOk exReq exWorld exPath (str "text/plain") exData
     (by decide) (by decide) rfl rfl rfl⟩

/-- C2 (as amended): with status 0 the handler answers 503 with the "server is currently
down" message, with status 3 it answers 503 with the "server is currently restarting"
message; in both cases the only call made is `http.Error`, so no file is opened and the open
handles, the error sink and the load-time sink are left as they were. -/
theorem C2_down_or_restarting (con : Controller) (env : Env) (req : Request) (w : World)
    (hs : con.Status = 0 ∨ con.Status = 3) :
    ∃ r w1, ServeHTTP con env req Response.fresh w = some (r, w1) ∧
      r.sentStatus = 503 ∧
      (con.Status = 0 →
        r.body = str "The server is currently down and not serving requests.\n") ∧
      (con.Status = 3 → r.body = str "The server is currently restarting.\n") ∧
      w1.openFiles = w.openFiles ∧ w1.errorSink = w.errorSink ∧ w1.loadSink = w.loadSink ∧
      ∃ msg, w1.trace = w.trace ++ [Event.httpError msg 503] := by
  rcases hs with hs | hs
  · refine ⟨httpError Response.fresh msgDown StatusServiceUnavailable,
      w.record (Event.httpError msgDown StatusServiceUnavailable), ?_, ?_, ?_, ?_,
      rfl, rfl, rfl, msgDown, rfl⟩
    · simp [ServeHTTP, hs]
    · decide
    · intro _; decide
    · intro h; rw [hs] at h; exact absurd h (by decide)
  · refine ⟨httpError Response.fresh msgRestarting StatusServiceUnavailable,
      w.record (Event.httpError msgRestarting StatusServiceUnavailable), ?_, ?_, ?_, ?_,
      rfl, rfl, rfl, msgRestarting, rfl⟩
    · simp [ServeHTTP, hs]
    · decide
    · intro h; rw [hs] at h; exact absurd h (by decide)
    · intro _; decide

/-- C2 (as amended) at a controller with status 3. -/
theorem C2_down_or_restarting_witness :
    (exConRestarting.Status = 0 ∨ exConRestarting.Status = 3) ∧
    ∃ r w1, ServeHTTP exConRestarting exEnvOk exReq Response.fresh exWorld = some (r, w1) ∧
      r.sentStatus = 503 ∧
      (exConRestarting.Status = 0 →
        r.body = str "The server is currently down and not serving requests.\n") ∧
      (exConRestarting.Status = 3 → r.body = str "The server is currently restarting.\n") ∧
      w1.openFiles = exWorld.openFiles ∧ w1.errorSink = exWorld.errorSink ∧
      w1.loadSink = exWorld.loadSink ∧
      ∃ msg, w1.trace = exWorld.trace ++ [Event.httpError msg 503] :=
  ⟨by decide, C2_down_or_restarting exConRestarting exEnvOk exReq exWorld (by decide)⟩

/-- C2 as stated fails: with status 3 the response is 503 but its body is the "restarting"
message, which is not the "server is currently down" message sent with status 0. -/
theorem C2_same_message_counterexample :
    exConRestarting.Status = 3 ∧
    ∃ r w1, ServeHTTP exConRestarting exEnvOk exReq Response.fresh exWorld = some (r, w1) ∧
      r.sentStatus = 503 ∧
      r.body = str "The server is currently restarting.\n" ∧
      r.body ≠ str "The server is currently down and not serving requests.\n" :=
  ⟨by decide, httpError Response.fresh msgRestarting StatusServiceUnavailable,
   exWorld.record (Event.httpError msgRestarting StatusServiceUnavailable),
   by decide, by decide, by decide, by decide⟩

/-- C3: with status 2 the handler answers 503 with the maintenance message, which differs
from the message of status 0; the only call made is `http.Error`, so no file is opened and
the open handles, the error sink and the load-time sink are left as they were. -/
theorem C3_maintenance (con : Controller) (env : Env) (req : Request) (w : World)
    (hs : con.Status = 2) :
    ∃ r, ServeHTTP con env req Response.fresh w =
        some (r, { w with trace := w.trace ++ [Event.httpError msgMaintenance 503] }) ∧
      r.sentStatus = 503 ∧
      r.body = str "The server is currently maintenance mode and not serving requests.\n" ∧
      r.body ≠ str "The server is currently down and not serving requests.\n" := by
  refine ⟨httpError Response.fresh msgMaintenance StatusServiceUnavailable, ?_, ?_, ?_, ?_⟩
  · simp [ServeHTTP, hs, World.record, StatusServiceUnavailable]
  · decide
  · decide
  · decide

/-- C3 at a controller with status 2. -/
theorem C3_maintenance_witness :
    exConMaintenance.Status = 2 ∧
    ∃ r, ServeHTTP exConMaintenance exEnvOk exReq Response.fresh exWorld =
        some (r, { exWorld with
          trace := exWorld.trace ++ [Event.httpError msgMaintenance 503] }) ∧
      r.sentStatus = 503 ∧
      r.body = str "The server is currently maintenance mode and not serving requests.\n" ∧
      r.body ≠ str "The server is currently down and not serving requests.\n" :=
  ⟨by decide, C3_maintenance exConMaintenance exEnvOk exReq exWorld (by decide)⟩

/-- C4: with status 1, when the file at the computed path does not open (whatever the resolver
would answer), the response has status 404 and holds only the error body; the error sink gets
the one line `path ++ "::404::" ++ err`; the calls made are `os.Open`, the log write and the
status response, so the resolver is not consulted and nothing is copied; the load-time sink
and the open handles are unchanged. -/
theorem C4_not_found (con : Controller) (env : Env) (req : Request) (w : World)
    (path err : GoString)
    (hs : con.Status = 1) (hp : fsPath con req = some path)
    (ho : env.osOpen path = .error err) :
    ∃ r w1, ServeHTTP con env req Response.fresh w = some (r, w1) ∧
      r.sentStatus = 404 ∧ r.body = env.statusBody 404 ∧ r.sentHeader = [] ∧
      w1.errorSink = w.errorSink ++ [path ++ str "::404::" ++ err] ∧
      w1.loadSink = w.loadSink ∧ w1.openFiles = w.openFiles ∧
      w1.trace = w.trace ++ [Event.osOpen path,
        Event.publicLog (path ++ str "::404::" ++ err), Event.httpThrowStatus 404] ∧
      (∀ p, Event.getContentType p ∉ w1.trace.drop w.trace.length) ∧
      (∀ p, Event.ioCopy p ∉ w1.trace.drop w.trace.length) := by
  rw [serveHTTP_normal con env req _ w path hs hp, serveFile_open_error env path err _ w ho]
  refine ⟨_, _, rfl, rfl, ?_, rfl, rfl, rfl, rfl, rfl, ?_, ?_⟩
  · simp [HttpThrowStatus, Response.Write, Response.WriteHeader, Response.fresh,
      StatusNotFound]
  · intro p; simp
  · intro p; simp

/-- C4 at `/a.txt` with the environment where the file is missing. -/
theorem C4_not_found_witness :
    exCon.Status = 1 ∧ fsPath exCon exReq = some exPath ∧
    exEnvMissing.osOpen exPath = .error (str "no such file or directory") ∧
    ∃ r w1, ServeHTTP exCon exEnvMissing exReq Response.fresh exWorld = some (r, w1) ∧
      r.sentStatus = 404 ∧ r.body = exEnvMissing.statusBody 404 ∧ r.sentHeader = [] ∧
      w1.errorSink = exWorld.errorSink ++
        [exPath ++ str "::404::" ++ str "no such file or directory"] ∧
      w1.loadSink = exWorld.loadSink ∧ w1.openFiles = exWorld.openFiles ∧
      w1.trace = exWorld.trace ++ [Event.osOpen exPath,
        Event.publicLog (exPath ++ str "::404::" ++ str "no such file or directory"),
        Event.httpThrowStatus 404] ∧
      (∀ p, Event.getContentType p ∉ w1.trace.drop exWorld.trace.length) ∧
      (∀ p, Event.ioCopy p ∉ w1.trace.drop exWorld.trace.length) :=
  ⟨by decide, by decide, rfl,
   C4_not_found exCon exEnvMissing exReq exWorld exPath (str "no such file or directory")
     (by decide) (by decide) rfl⟩

/-- C5: with status 1, when the file opens and the content type does not resolve, the
response has status 415, its header map is empty (no `Content-Type` was set) and its body
holds only the error body; the error sink gets the one line `path ++ "::415::" ++ err`;
nothing is copied; the load-time sink is unchanged. -/
theorem C5_unsupported_media_type (con : Controller) (env : Env) (req : Request) (w : World)
    (path err : GoString) (data : List UInt8)
    (hs : con.Status = 1) (hp : fsPath con req = some path)
    (ho : env.osOpen path = .ok data) (hc : env.getContentType path = .error err) :
    ∃ r w1, ServeHTTP con env req Response.fresh w = some (r, w1) ∧
      r.sentStatus = 415 ∧ r.header = [] ∧ r.sentHeader = [] ∧
      r.body = env.statusBody 415 ∧
      w1.errorSink = w.errorSink ++ [path ++ str "::415::" ++ err] ∧
      w1.loadSink = w.loadSink ∧
      w1.trace = w.trace ++ [Event.osOpen path, Event.getContentType path,
        Event.publicLog (path ++ str "::415::" ++ err), Event.httpThrowStatus 415] ∧
      (∀ k v, Event.headerAdd k v ∉ w1.trace.drop w.trace.length) ∧
      (∀ p, Event.ioCopy p ∉ w1.trace.drop w.trace.length) := by
  rw [serveHTTP_normal con env req _ w path hs hp,
    serveFile_type_error env path err data _ w ho hc]
  refine ⟨_, _, rfl, rfl, rfl, rfl, ?_, rfl, rfl, rfl, ?_, ?_⟩
  · simp [HttpThrowStatus, Response.Write, Response.WriteHeader, Response.fresh,
      StatusUnsupportedMediaType]
  · intro k v; simp
  · intro p; simp

/-- C5 at `/a.txt` with the environment where the resolver fails. -/
theorem C5_unsupported_media_type_witness :
    exCon.Status = 1 ∧ fsPath exCon exReq = some exPath ∧
    exEnvUnknownType.osOpen exPath = .ok exData ∧
    exEnvUnknownType.getContentType exPath = .error (str "unknown type") ∧
    ∃ r w1, ServeHTTP exCon exEnvUnknownType exReq Response.fresh exWorld = some (r, w1) ∧
      r.sentStatus = 415 ∧ r.header = [] ∧ r.sentHeader = [] ∧
      r.body = exEnvUnknownType.statusBody 415 ∧
      w1.errorSink = exWorld.errorSink ++ [exPath ++ str "::415::" ++ str "unknown type"] ∧
      w1.loadSink = exWorld.loadSink ∧
      w1.trace = exWorld.trace ++ [Event.osOpen exPath, Event.getContentType exPath,
        Event.publicLog (exPath ++ str "::415::" ++ str "unknown type"),
        Event.httpThrowStatus 415] ∧
      (∀ k v, Event.headerAdd k v ∉ w1.trace.drop exWorld.trace.length) ∧
      (∀ p, Event.ioCopy p ∉ w1.trace.drop exWorld.trace.length) :=
  ⟨by decide, by decide, rfl, rfl,
   C5_unsupported_media_type exCon exEnvUnknownType exReq exWorld exPath (str "unknown type")
     exData (by decide) (by decide) rfl rfl⟩

/-- C6: with status 1 and a request path `"/" ++ rest`, the computed filesystem path is the
document root followed by `index.html` when `rest` is empty and by `rest` itself, unchanged,
otherwise; this is the path of the one `os.Open` call the handler makes and the start of
every line it appends to either sink. With the document root of `New dir port`, which is
`dir ++ "public/"`, the request path `/` maps to `dir ++ "public/index.html"`. -/
theorem C6_path_mapping (con : Controller) (env : Env) (w : World) (rest dir : GoString)
    (port : Int) (hs : con.Status = 1) :
    fsPath con ⟨str "/" ++ rest⟩ =
      some (if rest = [] then con.DocumentRoot ++ str "index.html"
        else con.DocumentRoot ++ rest) ∧
    (∃ r w1 evs errs loads,
      ServeHTTP con env ⟨str "/" ++ rest⟩ Response.fresh w = some (r, w1) ∧
      w1.trace = w.trace ++ Event.osOpen (if rest = [] then con.DocumentRoot ++ str "index.html"
        else con.DocumentRoot ++ rest) :: evs ∧
      (∀ q, Event.osOpen q ∉ evs) ∧
      w1.errorSink = w.errorSink ++ errs ∧ w1.loadSink = w.loadSink ++ loads ∧
      ∀ l ∈ errs ++ loads, (if rest = [] then con.DocumentRoot ++ str "index.html"
        else con.DocumentRoot ++ rest) <+: l) ∧
    (New dir port).DocumentRoot = dir ++ str "public/" ∧
    fsPath { New dir port with Status := 1 } ⟨str "/"⟩ =
      some (dir ++ str "public/index.html") := by
  have hslash : str "/" = [47] := by decide
  have hp : fsPath con ⟨str "/" ++ rest⟩ =
      some (if rest = [] then con.DocumentRoot ++ str "index.html"
        else con.DocumentRoot ++ rest) := by
    cases rest <;> simp [fsPath, hslash]
  refine ⟨hp, ?_, rfl, ?_⟩
  · rw [serveHTTP_normal con env _ _ w _ hs hp]
    generalize (if rest = [] then con.DocumentRoot ++ str "index.html"
        else con.DocumentRoot ++ rest) = target
    cases ho : env.osOpen target with
    | error err =>
      rw [serveFile_open_error env target err _ w ho]
      exact ⟨_, _, _, [target ++ str "::404::" ++ err], [], rfl, rfl, by simp, rfl, by simp,
        by simp [List.append_assoc]⟩
    | ok data =>
      cases hc : env.getContentType target with
      | error err =>
        rw [serveFile_type_error env target err data _ w ho hc]
        exact ⟨_, _, _, [target ++ str "::415::" ++ err], [], rfl, rfl, by simp, rfl, by simp,
          by simp [List.append_assoc]⟩
      | ok m =>
        cases hcopy : env.ioCopy target with
        | some ne =>
          obtain ⟨n, err⟩ := ne
          rw [serveFile_copy_error env target m err data n _ w ho hc hcopy]
          exact ⟨_, _, _, [target ++ str "::500::" ++ err], [], rfl, rfl, by simp, rfl,
            by simp, by simp [List.append_assoc]⟩
        | none =>
          rw [serveFile_ok env target m data _ w ho hc hcopy]
          exact ⟨_, _, _, [], [target ++ str " rendered in " ++
            formatSeconds (Since env.startTime env.endTime) ++ str " seconds"], rfl, rfl,
            by simp, by simp, rfl, by simp [List.append_assoc]⟩
  · simp [fsPath, New, hslash]
    decide

/-- C6 at the request `/../a.txt`, document root `/srv/public/`, and `New "/srv/" 2082`. -/
theorem C6_path_mapping_witness :
    exCon.Status = 1 ∧
    fsPath exCon ⟨str "/" ++ str "../a.txt"⟩ =
      some (if str "../a.txt" = [] then exCon.DocumentRoot ++ str "index.html"
        else exCon.DocumentRoot ++ str "../a.txt") ∧
    (∃ r w1 evs errs loads,
      ServeHTTP exCon exEnvOk ⟨str "/" ++ str "../a.txt"⟩ Response.fresh exWorld = some (r, w1) ∧
      w1.trace = exWorld.trace ++
        Event.osOpen (if str "../a.txt" = [] then exCon.DocumentRoot ++ str "index.html"
          else exCon.DocumentRoot ++ str "../a.txt") :: evs ∧
      (∀ q, Event.osOpen q ∉ evs) ∧
      w1.errorSink = exWorld.errorSink ++ errs ∧ w1.loadSink = exWorld.loadSink ++ loads ∧
      ∀ l ∈ errs ++ loads, (if str "../a.txt" = [] then exCon.DocumentRoot ++ str "index.html"
        else exCon.DocumentRoot ++ str "../a.txt") <+: l) ∧
    (New (str "/srv/") 2082).DocumentRoot = str "/srv/" ++ str "public/" ∧
    fsPath { New (str "/srv/") 2082 with Status := 1 } ⟨str "/"⟩ =
      some (str "/srv/" ++ str "public/index.html") :=
  ⟨by decide, C6_path_mapping exCon exEnvOk exWorld (str "../a.txt") (str "/srv/") 2082 (by decide)⟩

/-- C7: with status 1, when the file opens, the content type resolves and the copy succeeds
(the 200 answer), the load-time sink gets exactly one line,
`path ++ " rendered in " ++ t ++ " seconds"`, and the error sink is unchanged. The text `t`
is that of `FormatFloat(time.Since(startTime).Seconds(), 'f', 6, 64)`. With a monotonic
clock it has no sign: a non-empty run of digits, a point, and exactly six digits. The number
it denotes is the elapsed time in seconds: counted in microseconds (`micros`), it is within
half a microsecond plus the float64 error `(elapsed + 2 s) / 2 ^ 53` of the elapsed
nanoseconds (`elapsed`, the difference of the clock readings, at most the largest
`time.Duration`); up to `2 ^ 52` ns it is a nearest whole number of microseconds. -/
theorem C7_load_time_line (con : Controller) (env : Env) (req : Request) (w : World)
    (path m : GoString) (data : List UInt8)
    (hs : con.Status = 1) (hp : fsPath con req = some path)
    (ho : env.osOpen path = .ok data) (hc : env.getContentType path = .ok m)
    (hcopy : env.ioCopy path = none) (hclock : env.startTime ≤ env.endTime) :
    ∃ r w1 ip fp, ServeHTTP con env req Response.fresh w = some (r, w1) ∧
      r.sentStatus = 200 ∧
      w1.loadSink = w.loadSink ++
        [path ++ str " rendered in " ++ (ip ++ str "." ++ fp) ++ str " seconds"] ∧
      ip ++ str "." ++ fp = formatSeconds (Since env.startTime env.endTime) ∧
      ip ≠ [] ∧ (∀ b ∈ ip, isDigit b) ∧ fp.length = 6 ∧ (∀ b ∈ fp, isDigit b) ∧
      (∃ micros elapsed, micros = decimalValue ip * 1000000 + decimalValue fp ∧
        elapsed = min (env.endTime - env.startTime) (2 ^ 63 - 1) ∧
        1000 * micros * 2 ^ 53 ≤ (elapsed + 500) * 2 ^ 53 + elapsed + 2000000000 ∧
        elapsed * 2 ^ 53 ≤ (1000 * micros + 500) * 2 ^ 53 + elapsed + 2000000000 ∧
        (elapsed ≤ 2 ^ 52 → 1000 * micros ≤ elapsed + 500 ∧ elapsed ≤ 1000 * micros + 500)) ∧
      w1.errorSink = w.errorSink := by
  obtain ⟨ip, fp, ht, h1, h2, h3, h4, hv⟩ :=
    formatSeconds_spec _ (Since_nonneg env.startTime env.endTime hclock)
  rw [Since_natAbs env.startTime env.endTime hclock] at hv
  rw [serveHTTP_normal con env req _ w path hs hp, serveFile_ok env path m data _ w ho hc hcopy]
  refine ⟨_, _, ip, fp, rfl, (ioCopy_fresh _ _ _).1, by rw [← ht], ht.symm, h1, h2, h3, h4,
    ⟨_, _, rfl, rfl, ?_⟩, rfl⟩
  rw [hv]
  exact ⟨(micros_bounds _).1, (micros_bounds _).2, micros_nearest _⟩

/-- C7 at `/a.txt` with the environment where everything succeeds; the clock readings are
1234567891 ns apart, which prints as `1.234568`. -/
theorem C7_load_time_line_witness :
    exCon.Status = 1 ∧ fsPath exCon exReq = some exPath ∧
    exEnvOk.osOpen exPath = .ok exData ∧
    exEnvOk.getContentType exPath = .ok (str "text/plain") ∧
    exEnvOk.ioCopy exPath = none ∧ exEnvOk.startTime ≤ exEnvOk.endTime ∧
    exEnvOk.endTime - exEnvOk.startTime = 1234567891 ∧
    formatSeconds (Since exEnvOk.startTime exEnvOk.endTime) = str "1.234568" ∧
    ∃ r w1 ip fp, ServeHTTP exCon exEnvOk exReq Response.fresh exWorld = some (r, w1) ∧
      r.sentStatus = 200 ∧
      w1.loadSink = exWorld.loadSink ++
        [exPath ++ str " rendered in " ++ (ip ++ str "." ++ fp) ++ str " seconds"] ∧
      ip ++ str "." ++ fp = formatSeconds (Since exEnvOk.startTime exEnvOk.endTime) ∧
      ip ≠ [] ∧ (∀ b ∈ ip, isDigit b) ∧ fp.length = 6 ∧ (∀ b ∈ fp, isDigit b) ∧
      (∃ micros elapsed, micros = decimalValue ip * 1000000 + decimalValue fp ∧
        elapsed = min (exEnvOk.endTime - exEnvOk.startTime) (2 ^ 63 - 1) ∧
        1000 * micros * 2 ^ 53 ≤ (elapsed + 500) * 2 ^ 53 + elapsed + 2000000000 ∧
        elapsed * 2 ^ 53 ≤ (1000 * micros + 500) * 2 ^ 53 + elapsed + 2000000000 ∧
        (elapsed ≤ 2 ^ 52 → 1000 * micros ≤ elapsed + 500 ∧ elapsed ≤ 1000 * micros + 500)) ∧
      w1.errorSink = exWorld.errorSink :=
  ⟨by decide, by decide, rfl, rfl, rfl, by decide, by decide, by decide,
   C7_load_time_line exCon exEnvOk exReq exWorld exPath (str "text/plain") exData
     (by decide) (by decide) rfl rfl rfl (by decide)⟩

/-- C8 fails on the code at status 4: the switch has no default case, so the handler opens
the file and answers 200 with its contents instead of 503. -/
theorem C8_status_four_serves_file :
    exConUnknown.Status ≠ 1 ∧
    ∃ r w1, ServeHTTP exConUnknown exEnvOk exReq Response.fresh exWorld = some (r, w1) ∧
      r.sentStatus = 200 ∧ r.sentStatus ≠ 503 ∧ r.body = exData ∧
      w1.openFiles = [exPath] ∧ Event.osOpen exPath ∈ w1.trace := by
  refine ⟨by decide, ?_⟩
  rw [serveHTTP_serves exConUnknown exEnvOk exReq _ exWorld exPath (by decide) (by decide)
    (by decide) (by decide), serveFile_ok exEnvOk exPath (str "text/plain") exData _ _ rfl rfl
    rfl]
  refine ⟨_, _, rfl, (ioCopy_fresh _ _ _).1, ?_, (ioCopy_fresh _ _ _).2.2, rfl, ?_⟩
  · rw [(ioCopy_fresh _ _ _).1]; decide
  · simp [exWorld]

/-- C9 fails on the code when the copy stops after some bytes went out: with the three-byte
file and a copy that fails after two bytes, the error line is logged and the 500 response is
attempted, but the header was already written by the copy, so the status sent is 200 and the
body is the two copied bytes followed by the error body. -/
theorem C9_copy_fault_keeps_200 :
    exCon.Status = 1 ∧ fsPath exCon exReq = some exPath ∧
    exEnvCopyFails.osOpen exPath = .ok exData ∧
    exEnvCopyFails.getContentType exPath = .ok (str "text/plain") ∧
    exEnvCopyFails.ioCopy exPath = some (2, str "input/output error") ∧
    ∃ r w1, ServeHTTP exCon exEnvCopyFails exReq Response.fresh exWorld = some (r, w1) ∧
      r.sentStatus = 200 ∧ r.sentStatus ≠ 500 ∧
      r.body = [104, 105] ++ exEnvCopyFails.statusBody 500 ∧
      w1.errorSink = [exPath ++ str "::500::" ++ str "input/output error"] ∧
      w1.loadSink = [] ∧
      w1.trace = [Event.osOpen exPath, Event.getContentType exPath,
        Event.headerAdd (str "Content-Type") (str "text/plain"), Event.ioCopy exPath,
        Event.publicLog (exPath ++ str "::500::" ++ str "input/output error"),
        Event.httpThrowStatus 500] := by
  refine ⟨by decide, by decide, rfl, rfl, rfl, ?_⟩
  rw [serveHTTP_normal exCon exEnvCopyFails exReq _ exWorld exPath (by decide) (by decide),
    serveFile_copy_error exEnvCopyFails exPath (str "text/plain") (str "input/output error")
      exData 2 _ _ rfl rfl rfl]
  refine ⟨_, _, rfl, ?_, ?_, ?_, rfl, rfl, rfl⟩
  · rw [copy_error_status]; decide
  · rw [copy_error_status]; decide
  · decide

/-- C10 as stated fails: after a 200 answer the file opened by the handler is still in the
set of open handles, which was empty before the call. -/
theorem C10_handle_left_open_counterexample :
    exCon.Status = 1 ∧ exEnvOk.osOpen exPath = .ok exData ∧
    ∃ r w1, ServeHTTP exCon exEnvOk exReq Response.fresh exWorld = some (r, w1) ∧
      r.sentStatus = 200 ∧ w1.openFiles = [exPath] ∧ w1.openFiles ≠ exWorld.openFiles := by
  refine ⟨by decide, rfl, ?_⟩
  rw [serveHTTP_normal exCon exEnvOk exReq _ exWorld exPath (by decide) (by decide),
    serveFile_ok exEnvOk exPath (str "text/plain") exData _ _ rfl rfl rfl]
  exact ⟨_, _, rfl, (ioCopy_fresh _ _ _).1, rfl, by decide⟩

/-- C10 (as amended): whenever the handler opens a file (the status is not 0, 2 or 3 and
`os.Open` succeeds on the computed path), it returns, and on each path after the open
(content type not resolved, copy failed, copy complete) the handle is still open at return:
the open handles after the call are the new handle in front of those before it. -/
theorem C10_handle_stays_open (con : Controller) (env : Env) (req : Request) (w : World)
    (path : GoString) (data : List UInt8)
    (h0 : con.Status ≠ 0) (h2 : con.Status ≠ 2) (h3 : con.Status ≠ 3)
    (hp : fsPath con req = some path) (ho : env.osOpen path = .ok data) :
    ∃ r w1, ServeHTTP con env req Response.fresh w = some (r, w1) ∧
      w1.openFiles = path :: w.openFiles ∧ w1.openFiles ≠ w.openFiles := by
  have hne : path :: w.openFiles ≠ w.openFiles := fun h => by
    have := congrArg List.length h
    simp at this
  rw [serveHTTP_serves con env req _ w path h0 h2 h3 hp]
  cases hc : env.getContentType path with
  | error err =>
    rw [serveFile_type_error env path err data _ w ho hc]
    exact ⟨_, _, rfl, rfl, hne⟩
  | ok m =>
    cases hcopy : env.ioCopy path with
    | some ne =>
      obtain ⟨n, err⟩ := ne
      rw [serveFile_copy_error env path m err data n _ w ho hc hcopy]
      exact ⟨_, _, rfl, rfl, hne⟩
    | none =>
      rw [serveFile_ok env path m data _ w ho hc hcopy]
      exact ⟨_, _, rfl, rfl, hne⟩

/-- C10 (as amended) at `/a.txt` with the environment where the copy fails. -/
theorem C10_handle_stays_open_witness :
    exCon.Status ≠ 0 ∧ exCon.Status ≠ 2 ∧ exCon.Status ≠ 3 ∧
    fsPath exCon exReq = some exPath ∧ exEnvCopyFails.osOpen exPath = .ok exData ∧
    ∃ r w1, ServeHTTP exCon exEnvCopyFails exReq Response.fresh exWorld = some (r, w1) ∧
      w1.openFiles = exPath :: exWorld.openFiles ∧ w1.openFiles ≠ exWorld.openFiles :=
  ⟨by decide, by decide, by decide, by decide, rfl,
   C10_handle_stays_open exCon exEnvCopyFails exReq exWorld exPath exData
     (by decide) (by decide) (by decide) (by decide) rfl⟩

end GPanel.Public
